import Mathlib

/-!
# Verification of the distributed Redis-backed circuit breaker

Shallow embedding of `src/redis_breaker/common/circuit_breaker.py` and
`src/redis_breaker/common/redis_scripts.py`.

The shared Redis store is modelled by `Store`: the per-service keys
`cb:<service>:state`, `cb:<service>:failures`, `cb:<service>:last_failure`
and `<service>:probe_lock`.  The state enum is persisted as a string in
Redis; since the breaker only ever writes the three valid enum strings we
model it as the inductive `CircuitState`.  Timestamps (`time.time()`
floats) are modelled as rationals, failure counts as naturals (the keys
only ever receive `INCR` and `SET 0`).  The probe lock is modelled by its
presence (its TTL expiry is outside the scope of the claims below, which
concern behaviour within a single probe window).

Each Lua script runs server-side as one indivisible operation, so each
script is one Lean function on `Store`.  The non-scripted Python methods
issue several Redis commands; where a claim is about their sequential
input/output behaviour they are modelled as one function, and where a
claim is about interleavings or round trips they are additionally modelled
command-by-command (`ProbeSys` for the probe election, the `RProg`
command sequences for round-trip counting and store-failure
propagation, `RawStore` for initialization before the record exists).
-/

/-- `CircuitState` from `circuit_breaker.py`: the `CLOSED`/`OPEN`/`HALF_OPEN`
enum, persisted in Redis as the strings `"closed"`/`"open"`/`"half_open"`. -/
inductive CircuitState where
  | closed
  | open
  | halfOpen
deriving Repr, DecidableEq

/-- The per-service record in Redis.  `state` ↔ `cb:<s>:state`,
`failures` ↔ `cb:<s>:failures`, `lastFailure` ↔ `cb:<s>:last_failure`
(`none` when the key is absent), `probeLock` ↔ presence of
`<s>:probe_lock`. -/
structure Store where
  state : CircuitState
  failures : Nat
  lastFailure : Option ℚ
  probeLock : Bool
deriving Repr, DecidableEq

/-- Breaker configuration: `failure_threshold` and `recovery_timeout`
from `RedisCircuitBreaker.__init__`. -/
structure Config where
  failureThreshold : Nat
  recoveryTimeout : ℚ
deriving Repr, DecidableEq

/-- `OPEN_SCRIPT` from `redis_scripts.py`: one atomic unit that sets
`state = OPEN`, `last_failure = now` and deletes the probe lock
(`_open` passes `CircuitState.OPEN.value` and `time.time()`). -/
def openScript (now : ℚ) (s : Store) : Store :=
  { s with state := .open, lastFailure := some now, probeLock := false }

/-- `FAILURE_SCRIPT` from `redis_scripts.py`: one atomic unit that
increments the failure counter (`INCR`, treating an absent key as 0) and,
when the new count reaches `ARGV[1] = failure_threshold`, additionally
sets `state = OPEN`, `last_failure = now` and deletes the probe lock.
Returns the new count. -/
def failureScript (threshold : Nat) (now : ℚ) (s : Store) : Nat × Store :=
  let failures := s.failures + 1
  if failures ≥ threshold then
    (failures, { s with failures := failures, state := .open,
                        lastFailure := some now, probeLock := false })
  else
    (failures, { s with failures := failures })

/-- `HALF_OPEN_SCRIPT` from `redis_scripts.py`: one atomic unit that
compares the stored state string with `ARGV[1]` and, on equality, stores
`ARGV[2]` and returns 1; otherwise returns 0 leaving the store unchanged
(`allow_request` passes `expected = OPEN`, `new = HALF_OPEN`). -/
def halfOpenScript (expected newState : CircuitState) (s : Store) :
    Bool × Store :=
  if s.state = expected then (true, { s with state := newState })
  else (false, s)

/-- `RedisCircuitBreaker.allow_request(self)`, as a function of the store
and of the value `time.time()` returns (`now`).  Branches in source
order: `get_state`; under `OPEN` read `last_failure` (absent ⇒ `False`),
compare `elapsed < recovery_timeout`, then `SET probe_lock NX` (present ⇒
`False`), then `HALF_OPEN_SCRIPT`; under `HALF_OPEN` return `False`;
otherwise (`CLOSED`) return `True`.  The caller's identity appears
nowhere: the result depends only on the store. -/
def allowRequest (cfg : Config) (now : ℚ) (s : Store) : Bool × Store :=
  match s.state with
  | .open =>
      match s.lastFailure with
      | none => (false, s)
      | some lf =>
          if now - lf < cfg.recoveryTimeout then (false, s)
          else if s.probeLock then (false, s)
          else
            let s1 := { s with probeLock := true }
            let r := halfOpenScript .open .halfOpen s1
            (r.1, r.2)
  | .halfOpen => (false, s)
  | .closed => (true, s)

/-- `RedisCircuitBreaker.record_success(self)`: `get_state`; if
`HALF_OPEN`, set `state = CLOSED`, `failures = 0` and delete the probe
lock; otherwise set `failures = 0`. -/
def recordSuccess (s : Store) : Store :=
  match s.state with
  | .halfOpen => { s with state := .closed, failures := 0, probeLock := false }
  | _ => { s with failures := 0 }

/-- `RedisCircuitBreaker.record_failure(self)`: a single call to
`FAILURE_SCRIPT` with `failure_threshold` and `time.time()`. -/
def recordFailure (cfg : Config) (now : ℚ) (s : Store) : Nat × Store :=
  failureScript cfg.failureThreshold now s

/-- Folding a sequence of `record_failure` calls (one per timestamp in
`ts`) over the store. -/
def recordFailures (cfg : Config) (ts : List ℚ) (s : Store) : Store :=
  match ts with
  | [] => s
  | t :: rest => recordFailures cfg rest (recordFailure cfg t s).2

/-- The store-writing operations of the breaker core, with their
parameters: `record_success`, `record_failure` (= `FAILURE_SCRIPT`),
`_open` (= `OPEN_SCRIPT`), `HALF_OPEN_SCRIPT` on its own, and
`allow_request` (whose only write path is lock acquisition followed by
`HALF_OPEN_SCRIPT`). -/
inductive StoreOp where
  | recSuccess
  | recFailure (threshold : Nat) (now : ℚ)
  | forceOpen (now : ℚ)
  | halfOpenCAS
  | allowReq (cfg : Config) (now : ℚ)

/-- Effect of each operation on the store. -/
def applyOp : StoreOp → Store → Store
  | .recSuccess, s => recordSuccess s
  | .recFailure th now, s => (failureScript th now s).2
  | .forceOpen now, s => openScript now s
  | .halfOpenCAS, s => (halfOpenScript .open .halfOpen s).2
  | .allowReq cfg now, s => (allowRequest cfg now s).2

/-- Program counter of one caller inside `allow_request`'s OPEN branch,
tracking its two store-writing round trips: `SET probe_lock NX` (from
`.start`), then `HALF_OPEN_SCRIPT` (from `.gotLock`).  `done b` holds the
boolean the call returns. -/
inductive ProbePC where
  | start
  | gotLock
  | done (result : Bool)
deriving Repr, DecidableEq

/-- `ProbePC.isDone`: the caller has returned. -/
def ProbePC.isDone : ProbePC → Bool
  | .done _ => true
  | _ => false

/-- Global configuration of `n` concurrent `allow_request` callers that
all observed state OPEN with the recovery timeout elapsed (those reads do
not write), racing on the shared probe lock and state key.  `casWrites`
counts how many times HALF_OPEN has been written to the state key. -/
structure ProbeSys (n : Nat) where
  lock : Bool
  state : CircuitState
  casWrites : Nat
  pcs : Fin n → ProbePC

/-- One atomic round trip by caller `i`, following `allow_request`:
from `.start`, `SET probe_lock NX` — if the lock is present the call
returns `False`, otherwise the lock is taken; from `.gotLock`,
`HALF_OPEN_SCRIPT` — if the state is still OPEN it becomes HALF_OPEN and
the call returns `True`, otherwise it returns `False`.  A finished caller
does nothing. -/
def probeStep {n : Nat} (c : ProbeSys n) (i : Fin n) : ProbeSys n :=
  match c.pcs i with
  | .start =>
      if c.lock then { c with pcs := Function.update c.pcs i (.done false) }
      else { c with lock := true, pcs := Function.update c.pcs i .gotLock }
  | .gotLock =>
      if c.state = .open then
        { c with state := .halfOpen, casWrites := c.casWrites + 1,
                 pcs := Function.update c.pcs i (.done true) }
      else { c with pcs := Function.update c.pcs i (.done false) }
  | .done _ => c

/-- Run an interleaving: the schedule lists which caller takes the next
round trip. -/
def probeRun {n : Nat} (sched : List (Fin n)) (c : ProbeSys n) : ProbeSys n :=
  sched.foldl probeStep c

/-- Initial configuration of a probe window: lock absent, state OPEN,
HALF_OPEN never yet written, every caller about to attempt the lock. -/
def probeInit (n : Nat) : ProbeSys n :=
  ⟨false, .open, 0, fun _ => .start⟩

/-- Raw keyed view of the per-service record, where each key may still be
absent — the situation `__init__` runs in before first initialization.
(`Store` above models the record after initialization.) -/
structure RawStore where
  stateKey : Option CircuitState
  failKey : Option Nat
  timeKey : Option ℚ
  lockKey : Bool
deriving Repr, DecidableEq

/-- `self.redis.exists(self.state_key)` in `__init__`: one command. -/
def existsStateKey (r : RawStore) : Bool :=
  r.stateKey.isSome

/-- `self.redis.set(self.state_key, CircuitState.CLOSED.value)`: one
separate command. -/
def setStateClosed (r : RawStore) : RawStore :=
  { r with stateKey := some .closed }

/-- `self.redis.set(self.failure_key, 0)`: one separate command. -/
def setFailuresZero (r : RawStore) : RawStore :=
  { r with failKey := some 0 }

/-- The initialization block of `RedisCircuitBreaker.__init__`, run
without interleaving: the existence check followed, when absent, by the
two writes.  These are three distinct Redis commands, not one atomic
unit. -/
def initRecord (r : RawStore) : RawStore :=
  if existsStateKey r then r else setFailuresZero (setStateClosed r)

/-- `FAILURE_SCRIPT` on the raw keyed view: `INCR` treats an absent
counter key as 0. -/
def failureScriptRaw (threshold : Nat) (now : ℚ) (r : RawStore) :
    Nat × RawStore :=
  let failures := r.failKey.getD 0 + 1
  if failures ≥ threshold then
    (failures, { r with failKey := some failures, stateKey := some .open,
                        timeKey := some now, lockKey := false })
  else
    (failures, { r with failKey := some failures })

/-- An interleaving against the initialization of `__init__`: after
constructor A has run its existence check on the empty store, constructor
B initializes the record and three recorded failures (threshold 3) drive
it OPEN; this is the store A's delayed writes then land on. -/
def c7AfterOthers : RawStore :=
  (failureScriptRaw 3 2 (failureScriptRaw 3 1
    (failureScriptRaw 3 0 (initRecord ⟨none, none, none, false⟩)).2).2).2

/-- The store-failure taxonomy of the public operations: the redis client
raises on a failed round trip.  Modelled from the spec: `StoreUnavailable`
(§7) stands for the connection error the `redis` library raises; the
breaker source contains no try/except, so the error reaches the caller. -/
inductive SErr where
  | storeUnavailable
deriving Repr, DecidableEq

/-- A straight-line Redis interaction of one method call: either return
a value to the caller, or issue one command — whose effect on the store
is `eff` — and continue with a continuation that computes the command's
answer from the pre-command store.  Each `step` is one round trip. -/
inductive RProg (α : Type) where
  | ret (a : α)
  | step (eff : Store → Store) (k : Store → RProg α)

/-- Run a program against an always-available store: result, final
store, and number of round trips issued. -/
def runOk {α : Type} : RProg α → Store → α × Store × Nat
  | .ret a, s => (a, s, 0)
  | .step eff k, s =>
      let r := runOk (k s) (eff s)
      (r.1, r.2.1, r.2.2 + 1)

/-- Run a program against a store whose `j`-th round trip completes iff
`avail j`: a failed round trip makes the redis client raise, which the
breaker never catches, so the run stops there with `storeUnavailable`
(commands already issued stay applied).  Returns the propagated result,
the final store, and the number of round trips attempted. -/
def runAvail {α : Type} (avail : Nat → Bool) :
    RProg α → Store → Nat → Except SErr α × Store × Nat
  | .ret a, s, j => (.ok a, s, j)
  | .step eff k, s, j =>
      if avail j then runAvail avail (k s) (eff s) (j + 1)
      else (.error .storeUnavailable, s, j + 1)

/-- A program issues at most `n` round trips along every branch. -/
inductive RProg.Bounded {α : Type} : Nat → RProg α → Prop where
  | ret (a : α) (n : Nat) : RProg.Bounded n (.ret a)
  | step (eff : Store → Store) (k : Store → RProg α) (n : Nat)
      (h : ∀ s, RProg.Bounded n (k s)) : RProg.Bounded (n + 1) (.step eff k)

/-- `record_failure` as its command sequence: the single
`FAILURE_SCRIPT` call, returning the new count. -/
def recordFailureP (cfg : Config) (now : ℚ) : RProg Nat :=
  .step (fun s => (failureScript cfg.failureThreshold now s).2)
    (fun s => .ret (failureScript cfg.failureThreshold now s).1)

/-- `record_success` as its command sequence, in source order:
`GET state`; under HALF_OPEN the three separate writes `SET state closed`,
`SET failures 0`, `DEL probe_lock`; otherwise the single write
`SET failures 0`. -/
def recordSuccessP : RProg Unit :=
  .step (fun s => s) fun s =>
    match s.state with
    | .halfOpen =>
        .step (fun s1 => { s1 with state := CircuitState.closed }) fun _ =>
        .step (fun s1 => { s1 with failures := 0 }) fun _ =>
        .step (fun s1 => { s1 with probeLock := false }) fun _ =>
        .ret ()
    | _ =>
        .step (fun s1 => { s1 with failures := 0 }) fun _ => .ret ()

/-- `allow_request` as its command sequence, in source order:
`GET state`; under OPEN, `GET last_failure`, then — when present and the
timeout elapsed — `SET probe_lock NX` (a write only when the lock is
absent; the answer is whether the lock was present), then the
`HALF_OPEN_SCRIPT` call. -/
def allowRequestP (cfg : Config) (now : ℚ) : RProg Bool :=
  .step (fun s => s) fun s =>
    match s.state with
    | .closed => .ret true
    | .halfOpen => .ret false
    | .open =>
        .step (fun s1 => s1) fun s1 =>
          match s1.lastFailure with
          | none => .ret false
          | some lf =>
              if now - lf < cfg.recoveryTimeout then .ret false
              else
                .step (fun s2 => if s2.probeLock then s2
                                 else { s2 with probeLock := true })
                  fun s2 =>
                    if s2.probeLock then .ret false
                    else
                      .step (fun s3 => (halfOpenScript .open .halfOpen s3).2)
                        fun s3 => .ret (halfOpenScript .open .halfOpen s3).1

example : (failureScript 3 5 ⟨.closed, 1, none, false⟩)
    = (2, ⟨.closed, 2, none, false⟩) := by decide
example : (failureScript 3 5 ⟨.closed, 2, none, false⟩)
    = (3, ⟨.open, 3, some 5, false⟩) := by decide

/-- Helper: a run of `record_failure` calls that keeps the final count
below the threshold only ever takes the below-threshold branch of
`FAILURE_SCRIPT`, so the state never changes and the counter adds up. -/
theorem recordFailures_below_threshold (cfg : Config) (ts : List ℚ) :
    ∀ s : Store, s.failures + ts.length < cfg.failureThreshold →
      (recordFailures cfg ts s).state = s.state
      ∧ (recordFailures cfg ts s).failures = s.failures + ts.length := by
  induction ts with
  | nil => intro s h; exact ⟨rfl, rfl⟩
  | cons t rest ih =>
      intro s h
      have hlt : ¬ s.failures + 1 ≥ cfg.failureThreshold := by
        simp only [List.length_cons] at h
        omega
      have hstep : (recordFailure cfg t s).2 = { s with failures := s.failures + 1 } := by
        simp [recordFailure, failureScript, hlt]
      have h2 : ({ s with failures := s.failures + 1 } : Store).failures
          + rest.length < cfg.failureThreshold := by
        simp only [List.length_cons] at h
        simpa using by omega
      have := ih { s with failures := s.failures + 1 } h2
      simp only [recordFailures, hstep]
      refine ⟨this.1, ?_⟩
      rw [this.2]
      simp [List.length_cons]
      omega

/-- Invariant of the probe race: either nobody has touched the lock yet
(state still OPEN, no HALF_OPEN write, everyone at start), or the lock is
taken by a unique leader — which is either about to run the CAS (state
still OPEN, no write yet) or has run it (state HALF_OPEN, written once,
leader returned `True`) — while every other caller is at start or has
returned `False`. -/
def ProbeInv {n : Nat} (c : ProbeSys n) : Prop :=
  (c.lock = false ∧ c.state = .open ∧ c.casWrites = 0 ∧ ∀ i, c.pcs i = .start)
  ∨ (c.lock = true ∧ ∃ l : Fin n,
      ((c.state = .open ∧ c.casWrites = 0 ∧ c.pcs l = .gotLock)
        ∨ (c.state = .halfOpen ∧ c.casWrites = 1 ∧ c.pcs l = .done true))
      ∧ ∀ j, j ≠ l → (c.pcs j = .start ∨ c.pcs j = .done false))

/-- The initial probe-window configuration satisfies the invariant. -/
theorem probeInv_init (n : Nat) : ProbeInv (probeInit n) :=
  Or.inl ⟨rfl, rfl, rfl, fun _ => rfl⟩

/-- One round trip by any caller preserves the invariant. -/
theorem probeInv_step {n : Nat} (c : ProbeSys n) (i : Fin n)
    (h : ProbeInv c) : ProbeInv (probeStep c i) := by
  rcases h with ⟨hlock, hstate, hcas, hall⟩ | ⟨hlock, l, hlead, hoth⟩
  · -- nobody has the lock: caller i takes it and becomes the leader
    have hpc : c.pcs i = .start := hall i
    right
    refine ⟨?_, i, ?_, ?_⟩
    · simp [probeStep, hpc, hlock]
    · left
      simp [probeStep, hpc, hlock, hstate, hcas, Function.update_same]
    · intro j hj
      left
      simp [probeStep, hpc, hlock, Function.update_noteq hj, hall j]
  · by_cases hil : i = l
    · subst hil
      rcases hlead with ⟨hs, hc, hl⟩ | ⟨hs, hc, hl⟩
      · -- the leader runs the CAS on a still-OPEN state: it succeeds
        right
        refine ⟨by simp [probeStep, hl, hs, hlock], i, ?_, ?_⟩
        · right
          simp [probeStep, hl, hs, hc, Function.update_same]
        · intro j hj
          simpa [probeStep, hl, hs, Function.update_noteq hj] using hoth j hj
      · -- the leader is already done: no step
        right
        exact ⟨by simp [probeStep, hl, hlock], i, Or.inr ⟨by simp [probeStep, hl, hs],
          by simp [probeStep, hl, hc], by simp [probeStep, hl]⟩,
          fun j hj => by simpa [probeStep, hl] using hoth j hj⟩
    · -- a non-leader: the lock is taken, so it fails and returns False
      rcases hoth i hil with hpc | hpc
      · right
        refine ⟨?_, l, ?_, ?_⟩
        · simp [probeStep, hpc, hlock]
        · rcases hlead with ⟨hs, hc, hl⟩ | ⟨hs, hc, hl⟩
          · left
            refine ⟨by simp [probeStep, hpc, hlock, hs], by
              simp [probeStep, hpc, hlock, hc], ?_⟩
            simp [probeStep, hpc, hlock,
              Function.update_noteq (fun he => hil he.symm), hl]
          · right
            refine ⟨by simp [probeStep, hpc, hlock, hs], by
              simp [probeStep, hpc, hlock, hc], ?_⟩
            simp [probeStep, hpc, hlock,
              Function.update_noteq (fun he => hil he.symm), hl]
        · intro j hj
          by_cases hji : j = i
          · subst hji
            right
            simp [probeStep, hpc, hlock, Function.update_same]
          · have := hoth j hj
            simpa [probeStep, hpc, hlock, Function.update_noteq hji]
              using this
      · -- already returned False: no step
        right
        refine ⟨by simp [probeStep, hpc, hlock], l, ?_, ?_⟩
        · rcases hlead with ⟨hs, hc, hl⟩ | ⟨hs, hc, hl⟩
          · exact Or.inl ⟨by simp [probeStep, hpc, hs],
              by simp [probeStep, hpc, hc], by simp [probeStep, hpc, hl]⟩
          · exact Or.inr ⟨by simp [probeStep, hpc, hs],
              by simp [probeStep, hpc, hc], by simp [probeStep, hpc, hl]⟩
        · intro j hj
          simpa [probeStep, hpc] using hoth j hj

/-- Any interleaving preserves the invariant. -/
theorem probeInv_run {n : Nat} (sched : List (Fin n)) (c : ProbeSys n)
    (h : ProbeInv c) : ProbeInv (probeRun sched c) := by
  induction sched generalizing c with
  | nil => exact h
  | cons i rest ih => exact ih (probeStep c i) (probeInv_step c i h)

/-- Helper: writing HALF_OPEN into the state key happens only through
`HALF_OPEN_SCRIPT` (bare or inside `allow_request`) and only when the
prior state was OPEN — no operation writes it blindly. -/
theorem applyOp_halfOpen_source (op : StoreOp) (s : Store)
    (h : (applyOp op s).state = .halfOpen) :
    s.state = .halfOpen
    ∨ (s.state = .open
        ∧ (op = .halfOpenCAS ∨ ∃ cfg now, op = .allowReq cfg now)) := by
  cases op with
  | recSuccess =>
      obtain ⟨st, f, t, l⟩ := s
      cases st <;> simp_all [applyOp, recordSuccess]
  | recFailure th now =>
      by_cases hc : s.failures + 1 ≥ th <;>
        simp_all [applyOp, failureScript]
  | forceOpen now =>
      simp_all [applyOp, openScript]
  | halfOpenCAS =>
      by_cases hs : s.state = .open
      · exact Or.inr ⟨hs, Or.inl rfl⟩
      · left
        simpa [applyOp, halfOpenScript, hs] using h
  | allowReq cfg now =>
      obtain ⟨st, f, t, l⟩ := s
      cases st with
      | closed => simp_all [applyOp, allowRequest]
      | halfOpen => simp_all [applyOp, allowRequest]
      | «open» =>
          cases t with
          | none => simp_all [applyOp, allowRequest]
          | some lf =>
              right
              refine ⟨rfl, Or.inr ⟨cfg, now, rfl⟩⟩

/-- C5: HALF_OPEN is only ever written by the compare-and-swap that
checks state = OPEN (never by a blind write); and among `n ≥ 2`
concurrent `allow_request` callers racing in an eligible probe window
(state OPEN, timeout elapsed, lock free), under every interleaving in
which all callers return, exactly one caller — the one whose lock
acquisition and CAS both succeed — returns `True`, every other returns
`False`, and HALF_OPEN is written exactly once. -/
theorem halfOpen_single_winner :
    (∀ (op : StoreOp) (s : Store), (applyOp op s).state = .halfOpen →
        s.state = .halfOpen
        ∨ (s.state = .open
            ∧ (op = .halfOpenCAS ∨ ∃ cfg now, op = .allowReq cfg now)))
    ∧ (∀ n : Nat, 2 ≤ n → ∀ sched : List (Fin n),
        (∀ i, ((probeRun sched (probeInit n)).pcs i).isDone = true) →
        (∃! i, (probeRun sched (probeInit n)).pcs i = .done true)
        ∧ (probeRun sched (probeInit n)).state = .halfOpen
        ∧ (probeRun sched (probeInit n)).casWrites = 1) := by
  constructor
  · exact applyOp_halfOpen_source
  · intro n hn sched hdone
    have hinv := probeInv_run sched (probeInit n) (probeInv_init n)
    rcases hinv with ⟨-, -, -, hall⟩ | ⟨-, l, hlead, hoth⟩
    · exfalso
      have h0 := hdone ⟨0, by omega⟩
      rw [hall ⟨0, by omega⟩] at h0
      simp [ProbePC.isDone] at h0
    · rcases hlead with ⟨-, -, hl⟩ | ⟨hs, hc, hl⟩
      · exfalso
        have h0 := hdone l
        rw [hl] at h0
        simp [ProbePC.isDone] at h0
      · refine ⟨⟨l, hl, ?_⟩, hs, hc⟩
        intro j hj
        by_contra hne
        rcases hoth j hne with hp | hp <;> rw [hp] at hj <;> simp at hj

/-- Witness for `halfOpen_single_winner`: the bare CAS from an OPEN
store, and two callers with the interleaving 0, 1, 0 — caller 0 takes
the lock, caller 1 fails the lock, caller 0 wins the CAS. -/
theorem halfOpen_single_winner_witness :
    ((⟨.open, 0, none, false⟩ : Store).state = .halfOpen
      ∨ ((⟨.open, 0, none, false⟩ : Store).state = .open
          ∧ (StoreOp.halfOpenCAS = .halfOpenCAS
              ∨ ∃ cfg now, StoreOp.halfOpenCAS = .allowReq cfg now)))
    ∧ ((∃! i : Fin 2, (probeRun [0, 1, 0] (probeInit 2)).pcs i = .done true)
        ∧ (probeRun [0, 1, 0] (probeInit 2)).state = .halfOpen
        ∧ (probeRun [0, 1, 0] (probeInit 2)).casWrites = 1) :=
  ⟨halfOpen_single_winner.1 .halfOpenCAS ⟨.open, 0, none, false⟩ (by decide),
   halfOpen_single_winner.2 2 (by norm_num) [0, 1, 0] (by decide)⟩

/-- C1: `record_failure` is a single call to the atomic `FAILURE_SCRIPT`,
which returns the incremented count and, exactly when that count reaches
`failure_threshold`, additionally sets state = OPEN, last_failure = now
and deletes the probe lock in the same unit (below threshold, only the
counter changes).  Consequently a sequence of `record_failure` calls from
CLOSED with count 0 whose count stays below the threshold leaves the
state CLOSED. -/
theorem recordFailure_atomic_threshold (cfg : Config) (now : ℚ) (s : Store) :
    (recordFailure cfg now s).1 = s.failures + 1
    ∧ ((recordFailure cfg now s).1 ≥ cfg.failureThreshold →
        (recordFailure cfg now s).2
          = { s with failures := s.failures + 1, state := .open,
                     lastFailure := some now, probeLock := false })
    ∧ ((recordFailure cfg now s).1 < cfg.failureThreshold →
        (recordFailure cfg now s).2 = { s with failures := s.failures + 1 })
    ∧ (∀ ts : List ℚ, s.state = .closed → s.failures = 0 →
        ts.length < cfg.failureThreshold →
        (recordFailures cfg ts s).state = .closed) := by
  refine ⟨?_, ?_, ?_, ?_⟩
  · by_cases h : s.failures + 1 ≥ cfg.failureThreshold <;>
      simp [recordFailure, failureScript, h]
  · intro h
    have h1 : (recordFailure cfg now s).1 = s.failures + 1 := by
      by_cases hc : s.failures + 1 ≥ cfg.failureThreshold <;>
        simp [recordFailure, failureScript, hc]
    rw [h1] at h
    simp [recordFailure, failureScript, h]
  · intro h
    have h1 : (recordFailure cfg now s).1 = s.failures + 1 := by
      by_cases hc : s.failures + 1 ≥ cfg.failureThreshold <;>
        simp [recordFailure, failureScript, hc]
    rw [h1] at h
    have hc : ¬ s.failures + 1 ≥ cfg.failureThreshold := by omega
    simp [recordFailure, failureScript, hc]
  · intro ts hstate hf hlen
    have := (recordFailures_below_threshold cfg ts s (by omega)).1
    rw [this, hstate]

/-- Witness for `recordFailure_atomic_threshold` at threshold 3, a CLOSED
store with count 0, and two failures. -/
theorem recordFailure_atomic_threshold_witness :
    (recordFailure ⟨3, 10⟩ 7 ⟨.closed, 0, none, false⟩).1 = 1
    ∧ (recordFailures ⟨3, 10⟩ [1, 2] ⟨.closed, 0, none, false⟩).state
        = .closed := by
  have h := recordFailure_atomic_threshold ⟨3, 10⟩ 7 ⟨.closed, 0, none, false⟩
  exact ⟨h.1, h.2.2.2 [1, 2] rfl rfl (by decide)⟩

/-- C2 (code bug): at a HALF_OPEN store whose counter is below the
threshold, `record_failure` leaves the state HALF_OPEN — the code never
checks for HALF_OPEN, contradicting its own docstring ("If the circuit is
HALF_OPEN, transition to OPEN immediately") and the claim's immediate
transition to OPEN.  Input: state = HALF_OPEN, failures = 0, threshold 3,
now = 5. -/
theorem recordFailure_halfOpen_not_forced_open :
    (recordFailure ⟨3, 10⟩ 5 ⟨.halfOpen, 0, some 0, true⟩).2.state
        = .halfOpen
    ∧ (recordFailure ⟨3, 10⟩ 5 ⟨.halfOpen, 0, some 0, true⟩).2.state
        ≠ .open := by
  decide

/-- C3: `record_success` under HALF_OPEN writes state = CLOSED,
failures = 0 and deletes the probe lock; in any other state it writes
failures = 0 and changes nothing else. -/
theorem recordSuccess_resets (s : Store) :
    (s.state = .halfOpen →
      recordSuccess s
        = { s with state := .closed, failures := 0, probeLock := false })
    ∧ (s.state ≠ .halfOpen →
      recordSuccess s = { s with failures := 0 }) := by
  obtain ⟨st, f, t, l⟩ := s
  cases st <;> simp [recordSuccess]

/-- Witness for `recordSuccess_resets` at a HALF_OPEN store and at an
OPEN store. -/
theorem recordSuccess_resets_witness :
    recordSuccess ⟨.halfOpen, 2, some 1, true⟩ = ⟨.closed, 0, some 1, false⟩
    ∧ recordSuccess ⟨.open, 2, some 1, true⟩ = ⟨.open, 0, some 1, true⟩ := by
  exact ⟨(recordSuccess_resets ⟨.halfOpen, 2, some 1, true⟩).1 rfl,
         (recordSuccess_resets ⟨.open, 2, some 1, true⟩).2 (by decide)⟩

/-- C4: while OPEN with elapsed time strictly below `recovery_timeout`,
`allow_request` returns `False` and leaves the store unchanged; since the
result depends only on the store and the store is unchanged, every
caller, any number of times, gets `False`. -/
theorem allowRequest_open_before_timeout (cfg : Config) (now lf : ℚ)
    (s : Store) (hs : s.state = .open) (hlf : s.lastFailure = some lf)
    (h : now - lf < cfg.recoveryTimeout) :
    allowRequest cfg now s = (false, s) := by
  obtain ⟨st, f, t, l⟩ := s
  simp only at hs hlf
  subst hs hlf
  simp [allowRequest, h]

/-- Witness for `allowRequest_open_before_timeout`: timeout 10, last
failure at 0, call at 5. -/
theorem allowRequest_open_before_timeout_witness :
    allowRequest ⟨3, 10⟩ 5 ⟨.open, 3, some 0, false⟩
      = (false, ⟨.open, 3, some 0, false⟩) :=
  allowRequest_open_before_timeout ⟨3, 10⟩ 5 0 ⟨.open, 3, some 0, false⟩
    rfl rfl (by norm_num)

/-- C6: `OPEN_SCRIPT` is idempotent — applying it with `t1` and then
with a later `t2` equals applying it once with `t2`: state = OPEN,
last_failure = t2, probe lock deleted. -/
theorem openScript_idempotent (s : Store) (t1 t2 : ℚ) (h : t1 < t2) :
    openScript t2 (openScript t1 s) = openScript t2 s
    ∧ (openScript t2 (openScript t1 s)).state = .open
    ∧ (openScript t2 (openScript t1 s)).lastFailure = some t2
    ∧ (openScript t2 (openScript t1 s)).probeLock = false := by
  simp [openScript]

/-- Witness for `openScript_idempotent` at t1 = 0 < t2 = 1. -/
theorem openScript_idempotent_witness :
    openScript 1 (openScript 0 (⟨.closed, 2, none, true⟩ : Store))
      = openScript 1 ⟨.closed, 2, none, true⟩
    ∧ (openScript 1 (openScript 0 (⟨.closed, 2, none, true⟩ : Store))).state
      = .open := by
  have h := openScript_idempotent ⟨.closed, 2, none, true⟩ 0 1 (by norm_num)
  exact ⟨h.1, h.2.1⟩

/-- C10: whenever the stored state is HALF_OPEN, `allow_request` returns
`False` and leaves the store unchanged — the function takes no caller
identity or token, so this holds for every caller, including the CAS
winner on any later call, until the state leaves HALF_OPEN; and under
OPEN with no `last_failure` recorded it also returns `False`
unchanged. -/
theorem allowRequest_halfOpen_blocks (cfg : Config) (now : ℚ) (s : Store) :
    (s.state = .halfOpen → allowRequest cfg now s = (false, s))
    ∧ (s.state = .open → s.lastFailure = none →
        allowRequest cfg now s = (false, s)) := by
  obtain ⟨st, f, t, l⟩ := s
  constructor
  · intro hs
    simp only at hs
    subst hs
    simp [allowRequest]
  · intro hs ht
    simp only at hs ht
    subst hs ht
    simp [allowRequest]

/-- Witness for `allowRequest_halfOpen_blocks`: a HALF_OPEN store and an
OPEN store without a last-failure time. -/
theorem allowRequest_halfOpen_blocks_witness :
    allowRequest ⟨3, 10⟩ 99 ⟨.halfOpen, 3, some 0, true⟩
      = (false, ⟨.halfOpen, 3, some 0, true⟩)
    ∧ allowRequest ⟨3, 10⟩ 99 ⟨.open, 3, none, false⟩
      = (false, ⟨.open, 3, none, false⟩) :=
  ⟨(allowRequest_halfOpen_blocks ⟨3, 10⟩ 99 ⟨.halfOpen, 3, some 0, true⟩).1 rfl,
   (allowRequest_halfOpen_blocks ⟨3, 10⟩ 99 ⟨.open, 3, none, false⟩).2 rfl rfl⟩
example : allowRequest ⟨3, 10⟩ 5 ⟨.open, 3, some 0, false⟩
    = (false, ⟨.open, 3, some 0, false⟩) := by
  norm_num [allowRequest, halfOpenScript]
example : allowRequest ⟨3, 10⟩ 13 ⟨.open, 3, some 0, false⟩
    = (true, ⟨.halfOpen, 3, some 0, true⟩) := by
  norm_num [allowRequest, halfOpenScript]
example : allowRequest ⟨3, 10⟩ 13 ⟨.open, 3, some 0, true⟩
    = (false, ⟨.open, 3, some 0, true⟩) := by
  norm_num [allowRequest, halfOpenScript]

/-- Helper: the attempted round-trip counter never decreases. -/
theorem runAvail_count_ge {α : Type} (avail : Nat → Bool) :
    ∀ (p : RProg α) (s : Store) (j : Nat),
      j ≤ (runAvail avail p s j).2.2 := by
  intro p
  induction p with
  | ret a => intro s j; simp [runAvail]
  | step eff k ih =>
      intro s j
      by_cases ha : avail j = true
      · simp only [runAvail, ha, if_true]
        exact le_trans (Nat.le_succ j) (ih s (eff s) (j + 1))
      · simp [runAvail, ha]

/-- Helper: a bounded program attempts at most its bound. -/
theorem runAvail_count_le {α : Type} (avail : Nat → Bool) :
    ∀ {n : Nat} {p : RProg α}, RProg.Bounded n p →
      ∀ (s : Store) (j : Nat), (runAvail avail p s j).2.2 ≤ j + n := by
  intro n p hb
  induction hb with
  | ret a n => intro s j; simp [runAvail]
  | step eff k n h ih =>
      intro s j
      by_cases ha : avail j = true
      · simp only [runAvail, ha, if_true]
        have := ih s (eff s) (j + 1)
        omega
      · simp only [runAvail, ha, Bool.false_eq_true, if_false]
        omega

/-- Helper: an error result is the store error, raised by the last
attempted round trip. -/
theorem runAvail_error {α : Type} (avail : Nat → Bool) :
    ∀ (p : RProg α) (s : Store) (j : Nat) (e : SErr),
      (runAvail avail p s j).1 = .error e →
      e = .storeUnavailable
      ∧ avail ((runAvail avail p s j).2.2 - 1) = false := by
  intro p
  induction p with
  | ret a => intro s j e h; simp [runAvail] at h
  | step eff k ih =>
      intro s j e h
      refine ⟨by cases e; rfl, ?_⟩
      by_cases ha : avail j = true
      · have hr : runAvail avail (.step eff k) s j
            = runAvail avail (k s) (eff s) (j + 1) := by
          simp [runAvail, ha]
        rw [hr] at h ⊢
        exact (ih s (eff s) (j + 1) e h).2
      · have hr : runAvail avail (.step eff k) s j
            = (.error .storeUnavailable, s, j + 1) := by
          simp [runAvail, ha]
        rw [hr]
        simpa using ha

/-- Helper: a non-error result is produced only when every attempted
round trip was available. -/
theorem runAvail_ok_avail {α : Type} (avail : Nat → Bool) :
    ∀ (p : RProg α) (s : Store) (j : Nat) (v : α),
      (runAvail avail p s j).1 = .ok v →
      ∀ i, j ≤ i → i < (runAvail avail p s j).2.2 → avail i = true := by
  intro p
  induction p with
  | ret a =>
      intro s j v hv i hji hlt
      simp [runAvail] at hlt
      omega
  | step eff k ih =>
      intro s j v hv i hji hlt
      by_cases ha : avail j = true
      · simp only [runAvail, ha, if_true] at hv hlt
        by_cases hij : i = j
        · exact hij ▸ ha
        · exact ih s (eff s) (j + 1) v hv i (by omega) hlt
      · simp [runAvail, ha] at hv

/-- Helper: a non-error run agrees with the always-available run. -/
theorem runAvail_ok_agrees {α : Type} (avail : Nat → Bool) :
    ∀ (p : RProg α) (s : Store) (j : Nat) (v : α),
      (runAvail avail p s j).1 = .ok v →
      v = (runOk p s).1
      ∧ (runAvail avail p s j).2.1 = (runOk p s).2.1
      ∧ (runAvail avail p s j).2.2 = j + (runOk p s).2.2 := by
  intro p
  induction p with
  | ret a =>
      intro s j v hv
      simp [runAvail] at hv
      simp [runAvail, runOk, hv]
  | step eff k ih =>
      intro s j v hv
      by_cases ha : avail j = true
      · simp only [runAvail, ha, if_true] at hv ⊢
        have h := ih s (eff s) (j + 1) v hv
        refine ⟨?_, ?_, ?_⟩
        · simpa [runOk] using h.1
        · simpa [runOk] using h.2.1
        · simp only [runOk]
          omega
      · simp [runAvail, ha] at hv

/-- Helper: with the store available, a run completes with a result. -/
theorem runAvail_complete {α : Type} (avail : Nat → Bool)
    (hav : ∀ i, avail i = true) :
    ∀ (p : RProg α) (s : Store) (j : Nat),
      ∃ v, (runAvail avail p s j).1 = .ok v := by
  intro p
  induction p with
  | ret a => intro s j; exact ⟨a, rfl⟩
  | step eff k ih =>
      intro s j
      simp only [runAvail, hav j, if_true]
      exact ih s (eff s) (j + 1)

/-- Helper: `record_failure`'s command sequence is one round trip. -/
theorem recordFailureP_bounded (cfg : Config) (now : ℚ) :
    RProg.Bounded 1 (recordFailureP cfg now) :=
  .step _ _ 0 (fun _ => .ret _ 0)

/-- Helper: `record_success`'s command sequence is at most four round
trips. -/
theorem recordSuccessP_bounded : RProg.Bounded 4 recordSuccessP := by
  refine .step _ _ 3 fun s => ?_
  obtain ⟨st, f, t, l⟩ := s
  cases st with
  | closed => exact .step _ _ 2 fun _ => .ret _ 2
  | «open» => exact .step _ _ 2 fun _ => .ret _ 2
  | halfOpen =>
      exact .step _ _ 2 fun _ => .step _ _ 1 fun _ => .step _ _ 0 fun _ =>
        .ret _ 0

/-- Helper: `allow_request`'s command sequence is at most four round
trips. -/
theorem allowRequestP_bounded (cfg : Config) (now : ℚ) :
    RProg.Bounded 4 (allowRequestP cfg now) := by
  refine .step _ _ 3 fun s => ?_
  obtain ⟨st, f, t, l⟩ := s
  cases st with
  | closed => exact .ret _ 3
  | halfOpen => exact .ret _ 3
  | «open» =>
      refine .step _ _ 2 fun s1 => ?_
      obtain ⟨st1, f1, t1, l1⟩ := s1
      cases t1 with
      | none => exact .ret _ 2
      | some lf =>
          simp only
          split
          · exact .ret _ 2
          · refine .step _ _ 1 fun s2 => ?_
            split
            · exact .ret _ 1
            · exact .step _ _ 0 fun _ => .ret _ 0

/-- Helper: the command sequence of `record_failure` computes the same
answer and store as the one-shot model, in one round trip. -/
theorem runOk_recordFailureP (cfg : Config) (now : ℚ) (s : Store) :
    runOk (recordFailureP cfg now) s
      = ((recordFailure cfg now s).1, (recordFailure cfg now s).2, 1) := by
  simp [runOk, recordFailureP, recordFailure]

/-- Helper: the command sequence of `record_success` ends in the same
store as the one-shot model. -/
theorem runOk_recordSuccessP (s : Store) :
    (runOk recordSuccessP s).2.1 = recordSuccess s := by
  obtain ⟨st, f, t, l⟩ := s
  cases st <;> simp [runOk, recordSuccessP, recordSuccess]

/-- Helper: the command sequence of `allow_request` computes the same
answer and store as the one-shot model. -/
theorem runOk_allowRequestP (cfg : Config) (now : ℚ) (s : Store) :
    (runOk (allowRequestP cfg now) s).1 = (allowRequest cfg now s).1
    ∧ (runOk (allowRequestP cfg now) s).2.1 = (allowRequest cfg now s).2 := by
  obtain ⟨st, f, t, l⟩ := s
  cases st with
  | closed => simp [runOk, allowRequestP, allowRequest]
  | halfOpen => simp [runOk, allowRequestP, allowRequest]
  | «open» =>
      cases t with
      | none => simp [runOk, allowRequestP, allowRequest]
      | some lf =>
          by_cases hq : now - lf < cfg.recoveryTimeout
          · simp [runOk, allowRequestP, allowRequest, hq]
          · cases l <;>
              simp [runOk, allowRequestP, allowRequest, hq, halfOpenScript]

/-- C7 counterexample: `__init__` initializes with a check-then-set
sequence, not an atomic initialize-if-absent unit — a constructor that
passed its existence check on the empty store and whose two writes are
delayed past another constructor's initialization and three recorded
failures (threshold 3) lands its writes on a record that now exists with
state OPEN, overwriting it with state = CLOSED and count 0. -/
theorem initRecord_race_counterexample :
    existsStateKey ⟨none, none, none, false⟩ = false
    ∧ c7AfterOthers.stateKey = some .open
    ∧ (setFailuresZero (setStateClosed c7AfterOthers)).stateKey
        = some .closed
    ∧ (setFailuresZero (setStateClosed c7AfterOthers)).failKey = some 0 := by
  refine ⟨rfl, ?_, ?_, rfl⟩ <;> rfl

/-- C7 amended: the per-service record is created lazily at first
construction by a non-atomic check-then-set sequence — an existence check
on the state key followed, when it is absent, by two separate writes
setting state = CLOSED and failures = 0.  Run without interleaving, an
existing record is left unchanged; but the sequence is not a single
atomic initialize-if-absent unit, and its delayed writes can overwrite a
record that came to exist in between (see the counterexample). -/
theorem initRecord_check_then_set (r : RawStore) :
    (existsStateKey r = true → initRecord r = r)
    ∧ (existsStateKey r = false →
        initRecord r
          = { r with stateKey := some .closed, failKey := some 0 }) := by
  constructor <;> intro h <;>
    simp [initRecord, h, setFailuresZero, setStateClosed]

/-- Witness for `initRecord_check_then_set`: an existing OPEN record is
unchanged; the empty record is initialized to CLOSED with count 0. -/
theorem initRecord_check_then_set_witness :
    initRecord ⟨some .open, some 3, none, false⟩
      = ⟨some .open, some 3, none, false⟩
    ∧ initRecord ⟨none, none, none, false⟩
      = ⟨some .closed, some 0, none, false⟩ :=
  ⟨(initRecord_check_then_set ⟨some .open, some 3, none, false⟩).1 rfl,
   (initRecord_check_then_set ⟨none, none, none, false⟩).2 rfl⟩

/-- C8 counterexample: `record_success` at a CLOSED store issues two
round trips (the state read and the counter reset), not one; and
`allow_request` in an eligible OPEN probe window (timeout 10, last
failure at 0, called at 13, lock free) issues four round trips — three
beyond the first, exceeding the claimed at-most-two extra. -/
theorem roundTrips_counterexample :
    (runOk recordSuccessP ⟨.closed, 2, none, false⟩).2.2 = 2
    ∧ (2 : Nat) ≠ 1
    ∧ (runOk (allowRequestP ⟨3, 10⟩ 13) ⟨.open, 3, some 0, false⟩).2.2 = 4
    ∧ ¬ ((4 : Nat) ≤ 1 + 2) := by
  refine ⟨rfl, by decide, ?_, by decide⟩
  norm_num [runOk, allowRequestP, halfOpenScript]

/-- C8 amended: with the store available, `record_failure` issues exactly
one round trip (the failure script); `record_success` issues two, or four
when the observed state is HALF_OPEN; `allow_request` issues exactly one
round trip when the observed state is not OPEN, and when it is OPEN at
most three additional round trips beyond the one (the last-failure read,
the probe-lock acquisition and the half-open CAS) — at most four in
total. -/
theorem roundTrips_bounded (cfg : Config) (now : ℚ) (s : Store) :
    (runOk (recordFailureP cfg now) s).2.2 = 1
    ∧ (runOk recordSuccessP s).2.2 = (if s.state = .halfOpen then 4 else 2)
    ∧ (s.state ≠ .open → (runOk (allowRequestP cfg now) s).2.2 = 1)
    ∧ (runOk (allowRequestP cfg now) s).2.2 ≤ 4 := by
  obtain ⟨st, f, t, l⟩ := s
  refine ⟨by simp [runOk, recordFailureP], ?_, ?_, ?_⟩
  · cases st <;> simp [runOk, recordSuccessP]
  · intro h
    cases st with
    | closed => simp [runOk, allowRequestP]
    | halfOpen => simp [runOk, allowRequestP]
    | «open» => exact absurd rfl h
  · cases st with
    | closed => simp [runOk, allowRequestP]
    | halfOpen => simp [runOk, allowRequestP]
    | «open» =>
        cases t with
        | none => simp [runOk, allowRequestP]
        | some lf =>
            by_cases hq : now - lf < cfg.recoveryTimeout
            · simp [runOk, allowRequestP, hq]
            · cases l <;>
                simp [runOk, allowRequestP, hq, halfOpenScript]

/-- Witness for `roundTrips_bounded` at a CLOSED store. -/
theorem roundTrips_bounded_witness :
    (runOk (recordFailureP ⟨3, 10⟩ 0) ⟨.closed, 0, none, false⟩).2.2 = 1
    ∧ (runOk (allowRequestP ⟨3, 10⟩ 0) ⟨.closed, 0, none, false⟩).2.2
        = 1 := by
  have h := roundTrips_bounded ⟨3, 10⟩ 0 ⟨.closed, 0, none, false⟩
  exact ⟨h.1, h.2.2.1 (by decide)⟩

/-- C9: no public operation retries a store round trip.  Run against a
store whose round trips may fail (`avail`), each of `allow_request`,
`record_success` and `record_failure` attempts at most its bounded number
of round trips; when every round trip is available it completes with the
result and store of the one-shot model; an error result is exactly the
propagated `storeUnavailable` raised by the last attempted round trip;
and a non-error result is produced only when every attempted round trip
completed — a store failure is never silently interpreted as an
allow/deny answer or a breaker state. -/
theorem storeError_propagation (cfg : Config) (now : ℚ)
    (avail : Nat → Bool) (s : Store) :
    ((runAvail avail (allowRequestP cfg now) s 0).2.2 ≤ 4
      ∧ ((∀ i, avail i = true) →
          (runAvail avail (allowRequestP cfg now) s 0).1
            = .ok (allowRequest cfg now s).1
          ∧ (runAvail avail (allowRequestP cfg now) s 0).2.1
            = (allowRequest cfg now s).2)
      ∧ (∀ e, (runAvail avail (allowRequestP cfg now) s 0).1 = .error e →
          e = .storeUnavailable
          ∧ avail ((runAvail avail (allowRequestP cfg now) s 0).2.2 - 1)
              = false)
      ∧ (∀ v, (runAvail avail (allowRequestP cfg now) s 0).1 = .ok v →
          ∀ i, i < (runAvail avail (allowRequestP cfg now) s 0).2.2 →
            avail i = true))
    ∧ ((runAvail avail recordSuccessP s 0).2.2 ≤ 4
      ∧ ((∀ i, avail i = true) →
          (runAvail avail recordSuccessP s 0).1 = .ok ()
          ∧ (runAvail avail recordSuccessP s 0).2.1 = recordSuccess s)
      ∧ (∀ e, (runAvail avail recordSuccessP s 0).1 = .error e →
          e = .storeUnavailable
          ∧ avail ((runAvail avail recordSuccessP s 0).2.2 - 1) = false)
      ∧ (∀ v, (runAvail avail recordSuccessP s 0).1 = .ok v →
          ∀ i, i < (runAvail avail recordSuccessP s 0).2.2 →
            avail i = true))
    ∧ ((runAvail avail (recordFailureP cfg now) s 0).2.2 ≤ 1
      ∧ ((∀ i, avail i = true) →
          (runAvail avail (recordFailureP cfg now) s 0).1
            = .ok (recordFailure cfg now s).1
          ∧ (runAvail avail (recordFailureP cfg now) s 0).2.1
            = (recordFailure cfg now s).2)
      ∧ (∀ e, (runAvail avail (recordFailureP cfg now) s 0).1 = .error e →
          e = .storeUnavailable
          ∧ avail ((runAvail avail (recordFailureP cfg now) s 0).2.2 - 1)
              = false)
      ∧ (∀ v, (runAvail avail (recordFailureP cfg now) s 0).1 = .ok v →
          ∀ i, i < (runAvail avail (recordFailureP cfg now) s 0).2.2 →
            avail i = true)) := by
  refine ⟨⟨?_, ?_, ?_, ?_⟩, ⟨?_, ?_, ?_, ?_⟩, ⟨?_, ?_, ?_, ?_⟩⟩
  · simpa using runAvail_count_le avail (allowRequestP_bounded cfg now) s 0
  · intro hav
    obtain ⟨v, hv⟩ := runAvail_complete avail hav (allowRequestP cfg now) s 0
    have h := runAvail_ok_agrees avail (allowRequestP cfg now) s 0 v hv
    have hagree := runOk_allowRequestP cfg now s
    exact ⟨by rw [hv, h.1, hagree.1], by rw [h.2.1, hagree.2]⟩
  · exact fun e he => runAvail_error avail (allowRequestP cfg now) s 0 e he
  · intro v hv i hi
    exact runAvail_ok_avail avail (allowRequestP cfg now) s 0 v hv i
      (Nat.zero_le i) hi
  · simpa using runAvail_count_le avail recordSuccessP_bounded s 0
  · intro hav
    obtain ⟨v, hv⟩ := runAvail_complete avail hav recordSuccessP s 0
    have h := runAvail_ok_agrees avail recordSuccessP s 0 v hv
    have hagree := runOk_recordSuccessP s
    exact ⟨by rw [hv], by rw [h.2.1, hagree]⟩
  · exact fun e he => runAvail_error avail recordSuccessP s 0 e he
  · intro v hv i hi
    exact runAvail_ok_avail avail recordSuccessP s 0 v hv i
      (Nat.zero_le i) hi
  · simpa using runAvail_count_le avail (recordFailureP_bounded cfg now) s 0
  · intro hav
    obtain ⟨v, hv⟩ := runAvail_complete avail hav (recordFailureP cfg now) s 0
    have h := runAvail_ok_agrees avail (recordFailureP cfg now) s 0 v hv
    have hagree := runOk_recordFailureP cfg now s
    refine ⟨by rw [hv, h.1, hagree], by rw [h.2.1, hagree]⟩
  · exact fun e he => runAvail_error avail (recordFailureP cfg now) s 0 e he
  · intro v hv i hi
    exact runAvail_ok_avail avail (recordFailureP cfg now) s 0 v hv i
      (Nat.zero_le i) hi

/-- Witness for `storeError_propagation`: with an unavailable store,
`record_failure` propagates `storeUnavailable`; with an available store,
`record_success` at a CLOSED store completes with the one-shot result. -/
theorem storeError_propagation_witness :
    (SErr.storeUnavailable = .storeUnavailable
      ∧ (fun _ : Nat => false)
          ((runAvail (fun _ => false) (recordFailureP ⟨3, 10⟩ 0)
              ⟨.closed, 1, none, false⟩ 0).2.2 - 1) = false)
    ∧ ((runAvail (fun _ => true) recordSuccessP
          ⟨.closed, 1, none, false⟩ 0).1 = .ok ()
      ∧ (runAvail (fun _ => true) recordSuccessP
          ⟨.closed, 1, none, false⟩ 0).2.1
          = recordSuccess ⟨.closed, 1, none, false⟩) :=
  ⟨(storeError_propagation ⟨3, 10⟩ 0 (fun _ => false)
      ⟨.closed, 1, none, false⟩).2.2.2.2.1 .storeUnavailable rfl,
   (storeError_propagation ⟨3, 10⟩ 0 (fun _ => true)
      ⟨.closed, 1, none, false⟩).2.1.2.1 (fun _ => rfl)⟩
